import Mathlib

/-!
# Verification of the market-data aggregation and quote-computation engine

Shallow embedding of the engine in `src/main.py` (a FastAPI gateway over the
Hyperliquid exchange API) together with proofs about it.

Modelling conventions:

* Python floats are modelled as exact rationals (`ℚ`); the decimal literals of
  the source (`0.00035`, `0.95`, …) are the corresponding rationals.
* Python `round(x, n)` rounds half to even (banker's rounding); `pyRound`
  models it on exact rationals.
* Upstream query results are passed in as `Except` values: `.ok` is a parsed
  response, `.error` is the exception an upstream fetch raises in the source.
* Python dicts of the upstream payloads are modelled as association lists
  (`all_mids`) or records with optional fields (asset contexts, candles);
  `dict.get(k, d)` becomes `Option.getD`.  A field of a candle record that is
  present but not parseable by `float`/`int` (which raises in the source) is a
  distinguished `RawField.bad` value.
* Each error result is classified by its raise site in the source (the
  `HTTPException` raised there, or the arithmetic fault).  The transport-level
  `except` blocks that re-serialize those exceptions into HTTP status codes at
  the boundary are routing, not engine logic, and are not modelled.
-/

/-- Python `round` to an integer: nearest integer, ties to even. -/
def roundHalfEven (x : ℚ) : ℤ :=
  let f : ℤ := ⌊x⌋
  let r : ℚ := x - f
  if r < 1/2 then f
  else if 1/2 < r then f + 1
  else if f % 2 = 0 then f else f + 1

/-- Python `round(x, n)`: round to `n` decimal digits, ties to even. -/
def pyRound (x : ℚ) (n : ℕ) : ℚ :=
  (roundHalfEven (x * 10 ^ n) : ℚ) / 10 ^ n

/-- Upstream fetch failure: the exception raised by an `info.*` SDK call or by
`httpx` in the source. -/
structure UpstreamErr where
  msg : String
deriving DecidableEq

/-- Error classification of a failing endpoint, by raise site:

* `symbolNotFound`: `HTTPException` "Price not found for …" in `get_quote`
  (status 400) and "Symbol … not found" in `get_market_summary` (status 404);
* `noCandleData`: `HTTPException(404, "No candle data available for …")`;
* `noValidCandleData`: `HTTPException(404, "No valid candle data for …")`;
* `divisionByZero`: the `ZeroDivisionError` raised by `1 / request.leverage`;
* `unreachable`: an `httpx.HTTPError` (status 503 at the boundary);
* `upstreamStatus`: a non-200 status from the upstream venue;
* `internal`: the catch-all 500 for a propagated upstream exception. -/
inductive ApiError where
  | symbolNotFound (symbol : String)
  | noCandleData (symbol : String)
  | noValidCandleData (symbol : String)
  | divisionByZero
  | unreachable (msg : String)
  | upstreamStatus (status : ℕ) (body : String)
  | internal
deriving DecidableEq

/-- The result of `info.all_mids()`: a dict from symbol to (parsed) mid price. -/
abbrev Mids := List (String × ℚ)

/-- `float(all_mids.get(symbol, 0))`. -/
def midOf (mids : Mids) (symbol : String) : ℚ :=
  (mids.lookup symbol).getD 0

/-- One asset-context record of `meta_and_asset_ctxs()[1]`.  Upstream encodes
the numeric fields as text and any of them may be absent; a present field is
modelled by its parsed value.  `ctx.get(key, d)` becomes `Option.getD`. -/
structure AssetCtx where
  coin : String
  markPx : Option ℚ := none
  prevDayPx : Option ℚ := none
  indexPx : Option ℚ := none
  oraclePx : Option ℚ := none
  funding : Option ℚ := none
  openInterest : Option ℚ := none
  dayNtlVlm : Option ℚ := none
  premium : Option ℚ := none
deriving DecidableEq

/-- The result of `info.meta_and_asset_ctxs()`: a JSON array whose element 0
is the universe metadata (never read by any embedded endpoint) and whose
element 1 is the list of asset contexts.  The source only ever observes the
array's length (`len(...) > 1`) and its element 1, so the array is modelled as
a list of asset-context lists. -/
abbrev MetaCtxs := List (List AssetCtx)

/-- The tracked symbols of the `/prices` endpoint. -/
def trackedSymbols : List String := ["BTC", "ETH", "SOL", "HYPE"]

/-- The body of the per-context loop of `get_prices`: the 24h change of one
asset context, `some` exactly when `prev_day_px > 0` (only then does the
source write `price_changes[coin]`). -/
def ctxChange (ctx : AssetCtx) : Option ℚ :=
  let mark_px := ctx.markPx.getD 0
  let prev_day_px := ctx.prevDayPx.getD mark_px
  if 0 < prev_day_px then some (pyRound ((mark_px - prev_day_px) / prev_day_px * 100) 2)
  else none

/-- One iteration of the `get_prices` loop: write `price_changes[coin]` when
`ctxChange` produced a value, leave the dict unchanged otherwise. -/
def priceStep (m : String → Option ℚ) (ctx : AssetCtx) : String → Option ℚ :=
  match ctxChange ctx with
  | some c => fun s => if s = ctx.coin then some c else m s
  | none => m

/-- The `price_changes` dict of `get_prices`, built by the loop over the asset
contexts; modelled as the lookup function of the dict (later writes to the
same coin win). -/
def priceChanges (ctxs : List AssetCtx) : String → Option ℚ :=
  ctxs.foldl priceStep (fun _ => none)

/-- One entry of the `/prices` response. -/
structure PriceEntry where
  price : ℚ
  change_24h : ℚ
deriving DecidableEq

/-- `get_prices` (`GET /prices`).  Both upstream queries are issued inside the
`try` block, so a failure of either raises and is caught by the catch-all
`except`, failing the whole endpoint. -/
def get_prices (midsRes : Except UpstreamErr Mids)
    (ctxsRes : Except UpstreamErr MetaCtxs) :
    Except ApiError (List (String × PriceEntry)) :=
  match midsRes with
  | .error _ => .error .internal
  | .ok allMids =>
    match ctxsRes with
    | .error _ => .error .internal
    | .ok mc =>
      let changes : String → Option ℚ :=
        match mc[1]? with
        | some assetCtxs => priceChanges assetCtxs
        | none => fun _ => none
      .ok (trackedSymbols.map fun symbol =>
        (symbol,
         { price := midOf allMids symbol
           change_24h := (changes symbol).getD 0 }))

/-- The request body of `POST /quote`. -/
structure QuoteRequest where
  symbol : String
  is_buy : Bool
  size_usd : ℚ
  leverage : ℤ
deriving DecidableEq

/-- The response of `POST /quote`. -/
structure Quote where
  symbol : String
  side : String
  size_usd : ℚ
  size_coins : ℚ
  leverage : ℤ
  estimated_price : ℚ
  mark_price : ℚ
  estimated_fee : ℚ
  total_cost : ℚ
  position_value : ℚ
  liquidation_price : ℚ
  funding_rate : ℚ
  funding_rate_annualized : ℚ
  timestamp : ℤ
deriving DecidableEq

/-- `get_quote` (`POST /quote`).  Mirrors the source line by line: resolve the
mid price (default 0) and fail when it is 0; find the asset context for the
symbol in element 1 of `meta_and_asset_ctxs` when that element exists; then
compute the derived fields.  `1 / request.leverage` raises
`ZeroDivisionError` when `leverage = 0` (there is no leverage or size
validation in this endpoint).  `now` is `int(time.time() * 1000)`. -/
def get_quote (midsRes : Except UpstreamErr Mids)
    (ctxsRes : Except UpstreamErr MetaCtxs)
    (request : QuoteRequest) (now : ℤ) : Except ApiError Quote :=
  match midsRes with
  | .error _ => .error .internal
  | .ok allMids =>
    let current_price := midOf allMids request.symbol
    if current_price = 0 then .error (.symbolNotFound request.symbol)
    else
      match ctxsRes with
      | .error _ => .error .internal
      | .ok mc =>
        let asset_ctx : Option AssetCtx :=
          (mc[1]?).bind (List.find? fun ctx => ctx.coin == request.symbol)
        let position_value := request.size_usd * (request.leverage : ℚ)
        let fee_rate : ℚ := 35 / 100000
        let estimated_fee := request.size_usd * fee_rate
        if request.leverage = 0 then .error .divisionByZero
        else
          let liquidation_price :=
            if request.is_buy then
              current_price * (1 - 1 / (request.leverage : ℚ) * (95 / 100))
            else
              current_price * (1 + 1 / (request.leverage : ℚ) * (95 / 100))
          let funding_rate :=
            match asset_ctx with
            | some ctx => ctx.funding.getD 0
            | none => 0
          let position_size_coins := request.size_usd / current_price
          .ok
            { symbol := request.symbol
              side := if request.is_buy then "buy" else "sell"
              size_usd := request.size_usd
              size_coins := pyRound position_size_coins 8
              leverage := request.leverage
              estimated_price := current_price
              mark_price :=
                match asset_ctx with
                | some ctx => ctx.markPx.getD current_price
                | none => current_price
              estimated_fee := pyRound estimated_fee 6
              total_cost := pyRound (request.size_usd + estimated_fee) 6
              position_value := pyRound position_value 2
              liquidation_price := pyRound liquidation_price 2
              funding_rate := funding_rate
              funding_rate_annualized := pyRound (funding_rate * 365 * 24) 4
              timestamp := now }

/-- The request body of `POST /submit` (the signature dict is carried opaquely
and never inspected). -/
structure SignedTransaction where
  symbol : String
  is_buy : Bool
  size_usd : ℚ
  leverage : ℤ
  user_address : String
  signature : List (String × String)
  timestamp : ℤ
deriving DecidableEq

/-- The `details` object echoed by a successful `submit_order`; note that it
has no execution-price field. -/
structure OrderDetails where
  symbol : String
  side : String
  size_usd : ℚ
  leverage : ℤ
  user : String
  timestamp : ℤ
deriving DecidableEq

/-- The response of `POST /submit`: always a normal JSON object.  `details`,
`note` and `next_steps` are present only on success. -/
structure SubmitResponse where
  success : Bool
  message : String
  note : Option String := none
  details : Option OrderDetails := none
  next_steps : Option (List String) := none
deriving DecidableEq

/-- `submit_order` (`POST /submit`).  The two validation `HTTPException`s are
raised inside the `try` block and caught by `except Exception`, which returns
a normal response with `success = false` and the message
`"Error: " + str(e)` (where `str` of an `HTTPException` is
`"status: detail"`); nothing escapes as an error status. -/
def submit_order (tx : SignedTransaction) : SubmitResponse :=
  if tx.size_usd ≤ 0 then
    { success := false, message := "Error: 400: Size must be positive" }
  else if tx.leverage < 1 ∨ 100 < tx.leverage then
    { success := false, message := "Error: 400: Leverage must be between 1 and 100" }
  else
    { success := true
      message := "Order validation successful"
      note := some "Real execution requires user wallet integration with private key signing"
      details := some
        { symbol := tx.symbol
          side := if tx.is_buy then "buy" else "sell"
          size_usd := tx.size_usd
          leverage := tx.leverage
          user := tx.user_address
          timestamp := tx.timestamp }
      next_steps := some
        ["1. Integrate web3 wallet (MetaMask, WalletConnect)",
         "2. Sign order with user's private key",
         "3. Submit to Hyperliquid Exchange endpoint",
         "4. Monitor order status via WebSocket"] }

/-- One field of a raw upstream candle record: absent, present with a parsed
numeric value, or present but not parseable (in which case `float`/`int`
raises in the source). -/
inductive RawField (α : Type) where
  | absent
  | val (a : α)
  | bad
deriving DecidableEq

/-- `float(candle.get(key, dflt))` (resp. `int(...)`): an absent field takes
the default, a present numeric field parses to its value, a present
non-numeric field raises (`none`). -/
def parseField {α : Type} (f : RawField α) (dflt : α) : Option α :=
  match f with
  | .absent => some dflt
  | .val a => some a
  | .bad => none

/-- One raw candle record of the upstream `candleSnapshot` response (only the
fields the source reads). -/
structure RawCandle where
  t : RawField ℤ := .absent
  o : RawField ℚ := .absent
  h : RawField ℚ := .absent
  l : RawField ℚ := .absent
  c : RawField ℚ := .absent
  v : RawField ℚ := .absent
deriving DecidableEq

/-- One candle of the `/candles` response. -/
structure Candle where
  time : ℤ
  open_ : ℚ
  high : ℚ
  low : ℚ
  close : ℚ
  volume : ℚ
deriving DecidableEq

/-- The `try` body of the per-candle loop of `get_candles`: build the
transformed record, aborting on the first field whose parse raises (the
source then skips the candle via `continue`). -/
def transformCandle (candle : RawCandle) : Option Candle := do
  let time ← parseField candle.t 0
  let o ← parseField candle.o 0
  let h ← parseField candle.h 0
  let l ← parseField candle.l 0
  let cl ← parseField candle.c 0
  let v ← parseField candle.v 0
  pure { time := time, open_ := o, high := h, low := l, close := cl, volume := v }

/-- The upstream `candleSnapshot` HTTP response:
`netFail` is an `httpx.HTTPError`; `badStatus` a non-200 status;
`payload none` a 200 whose JSON body is not a list (`isinstance` check);
`payload (some cs)` a 200 with a JSON list body. -/
inductive CandleUpstream where
  | netFail (msg : String)
  | badStatus (status : ℕ) (body : String)
  | payload (candles : Option (List RawCandle))
deriving DecidableEq

/-- The comparison key of `transformed.sort(key=lambda x: x["time"])`. -/
def candleLE (a b : Candle) : Bool := a.time ≤ b.time

/-- `get_candles` (`GET /candles/{symbol}`), from the point where the upstream
response is in hand.  An empty list is falsy in Python, so
`if not candles or not isinstance(candles, list)` also sends the empty list to
the 404 "No candle data available" branch.  Python's `list.sort` is a stable
ascending sort, modelled by `List.mergeSort`. -/
def get_candles (upstream : CandleUpstream) (symbol : String) :
    Except ApiError (List Candle) :=
  match upstream with
  | .netFail msg => .error (.unreachable msg)
  | .badStatus status body => .error (.upstreamStatus status body)
  | .payload none => .error (.noCandleData symbol)
  | .payload (some candles) =>
    if candles.isEmpty then .error (.noCandleData symbol)
    else
      let transformed := candles.filterMap transformCandle
      if transformed.isEmpty then .error (.noValidCandleData symbol)
      else .ok (transformed.mergeSort candleLE)

/-- The result of `info.l2_snapshot`: `levels` is the venue's array of level
arrays (element 0 bids, element 1 asks), `time` the optional book timestamp.
The level entries themselves are passed through untouched by the source, so
the embedding is polymorphic in the level type. -/
structure L2Book (α : Type) where
  levels : List (List α)
  time : Option ℤ := none
deriving DecidableEq

/-- The response of `GET /orderbook/{symbol}`. -/
structure Orderbook (α : Type) where
  symbol : String
  bids : List α
  asks : List α
  timestamp : ℤ
deriving DecidableEq

/-- `get_orderbook` (`GET /orderbook/{symbol}`).  `book["levels"][0]` and
`book["levels"][1]` raise when `levels` has fewer than two elements, which the
catch-all turns into a 500; `[:20]` is `List.take 20`; `book.get("time", now)`
is `Option.getD`. -/
def get_orderbook {α : Type} (bookRes : Except UpstreamErr (L2Book α))
    (symbol : String) (now : ℤ) : Except ApiError (Orderbook α) :=
  match bookRes with
  | .error _ => .error .internal
  | .ok book =>
    match book.levels[0]?, book.levels[1]? with
    | some bids, some asks =>
      .ok { symbol := symbol
            bids := bids.take 20
            asks := asks.take 20
            timestamp := book.time.getD now }
    | _, _ => .error .internal

/-- The response of `GET /market-summary/{symbol}`. -/
structure MarketSummary where
  symbol : String
  mid_price : ℚ
  mark_price : ℚ
  index_price : ℚ
  prev_day_price : ℚ
  price_change_24h : ℚ
  funding_rate : ℚ
  open_interest : ℚ
  volume_24h : ℚ
  premium : ℚ
  oracle_price : ℚ
  timestamp : ℤ
deriving DecidableEq

/-- `get_market_summary` (`GET /market-summary/{symbol}`).  The 404 for a
missing asset context is re-raised unchanged by `except HTTPException: raise`.
-/
def get_market_summary (midsRes : Except UpstreamErr Mids)
    (ctxsRes : Except UpstreamErr MetaCtxs)
    (symbol : String) (now : ℤ) : Except ApiError MarketSummary :=
  match midsRes with
  | .error _ => .error .internal
  | .ok allMids =>
    match ctxsRes with
    | .error _ => .error .internal
    | .ok mc =>
      let current_price := midOf allMids symbol
      let asset_ctx : Option AssetCtx :=
        (mc[1]?).bind (List.find? fun ctx => ctx.coin == symbol)
      match asset_ctx with
      | none => .error (.symbolNotFound symbol)
      | some ctx =>
        let mark_px := ctx.markPx.getD current_price
        let prev_day_px := ctx.prevDayPx.getD mark_px
        .ok
          { symbol := symbol
            mid_price := current_price
            mark_price := mark_px
            index_price := ctx.indexPx.getD mark_px
            prev_day_price := prev_day_px
            price_change_24h :=
              if 0 < prev_day_px then
                pyRound ((mark_px - prev_day_px) / prev_day_px * 100) 2
              else 0
            funding_rate := ctx.funding.getD 0
            open_interest := ctx.openInterest.getD 0
            volume_24h := ctx.dayNtlVlm.getD 0
            premium := ctx.premium.getD 0
            oracle_price := ctx.oraclePx.getD mark_px
            timestamp := now }

/-! ## Helper lemmas about the quote engine -/

/-- The value of the quote record built on the success path of `get_quote`. -/
def quoteOf (allMids : Mids) (mc : MetaCtxs) (request : QuoteRequest) (now : ℤ) : Quote :=
  let current_price := midOf allMids request.symbol
  let asset_ctx : Option AssetCtx :=
    (mc[1]?).bind (List.find? fun ctx => ctx.coin == request.symbol)
  let estimated_fee := request.size_usd * (35 / 100000)
  { symbol := request.symbol
    side := if request.is_buy then "buy" else "sell"
    size_usd := request.size_usd
    size_coins := pyRound (request.size_usd / current_price) 8
    leverage := request.leverage
    estimated_price := current_price
    mark_price :=
      match asset_ctx with
      | some ctx => ctx.markPx.getD current_price
      | none => current_price
    estimated_fee := pyRound estimated_fee 6
    total_cost := pyRound (request.size_usd + estimated_fee) 6
    position_value := pyRound (request.size_usd * (request.leverage : ℚ)) 2
    liquidation_price :=
      pyRound
        (if request.is_buy then
          current_price * (1 - 1 / (request.leverage : ℚ) * (95 / 100))
        else
          current_price * (1 + 1 / (request.leverage : ℚ) * (95 / 100))) 2
    funding_rate :=
      match asset_ctx with
      | some ctx => ctx.funding.getD 0
      | none => 0
    funding_rate_annualized :=
      pyRound ((match asset_ctx with
                | some ctx => ctx.funding.getD 0
                | none => 0) * 365 * 24) 4
    timestamp := now }

lemma get_quote_eq_ok (allMids : Mids) (mc : MetaCtxs) (request : QuoteRequest) (now : ℤ)
    (h0 : midOf allMids request.symbol ≠ 0) (hl : request.leverage ≠ 0) :
    get_quote (.ok allMids) (.ok mc) request now = .ok (quoteOf allMids mc request now) := by
  simp only [get_quote, quoteOf]
  rw [if_neg h0, if_neg hl]

lemma get_quote_ok_inv {midsRes : Except UpstreamErr Mids} {ctxsRes : Except UpstreamErr MetaCtxs}
    {request : QuoteRequest} {now : ℤ} {q : Quote}
    (h : get_quote midsRes ctxsRes request now = .ok q) :
    ∃ allMids mc, midsRes = .ok allMids ∧ ctxsRes = .ok mc ∧
      midOf allMids request.symbol ≠ 0 ∧ request.leverage ≠ 0 ∧
      q = quoteOf allMids mc request now := by
  cases midsRes with
  | error e => simp [get_quote] at h
  | ok allMids =>
    by_cases h0 : midOf allMids request.symbol = 0
    · simp [get_quote, h0] at h
    · cases ctxsRes with
      | error e => simp [get_quote, h0] at h
      | ok mc =>
        by_cases hl : request.leverage = 0
        · simp [get_quote, h0, hl] at h
        · refine ⟨allMids, mc, rfl, rfl, h0, hl, ?_⟩
          rw [get_quote_eq_ok allMids mc request now h0 hl] at h
          exact (Except.ok.inj h).symm

/-! ## Claim theorems -/

/-- C1: for every quote request whose symbol resolves to a mid price of 0 or
is absent from the mid-price snapshot (so `all_mids.get(symbol, 0)` yields 0),
`get_quote` fails with the symbol-not-found classification ("Price not found
for …"), and a successful quote never has estimated price 0. -/
theorem getQuote_zero_or_missing_price_fails :
    (∀ (allMids : Mids) (ctxsRes : Except UpstreamErr MetaCtxs) (request : QuoteRequest) (now : ℤ),
        midOf allMids request.symbol = 0 →
        get_quote (.ok allMids) ctxsRes request now = .error (.symbolNotFound request.symbol))
  ∧ (∀ (midsRes : Except UpstreamErr Mids) (ctxsRes : Except UpstreamErr MetaCtxs)
        (request : QuoteRequest) (now : ℤ) (q : Quote),
        get_quote midsRes ctxsRes request now = .ok q → q.estimated_price ≠ 0) := by
  constructor
  · intro allMids ctxsRes request now h
    simp [get_quote, h]
  · intro midsRes ctxsRes request now q hq
    obtain ⟨allMids, mc, -, -, h0, -, rfl⟩ := get_quote_ok_inv hq
    simpa [quoteOf] using h0

/-- Witness for C1 at a concrete input: "BTC" is absent from the snapshot. -/
theorem getQuote_zero_or_missing_price_fails_witness :
    midOf [("ETH", 5)] "BTC" = 0 ∧
    get_quote (.ok [("ETH", 5)]) (.ok []) { symbol := "BTC", is_buy := true, size_usd := 50, leverage := 2 } 7
      = .error (.symbolNotFound "BTC") :=
  ⟨rfl, getQuote_zero_or_missing_price_fails.1 [("ETH", 5)] (.ok [])
    { symbol := "BTC", is_buy := true, size_usd := 50, leverage := 2 } 7 rfl⟩

/-- C2 counterexample: `get_quote` does not reject invalid requests before the
division.  With a live price, a leverage-0 request reaches
`1 / request.leverage` and fails with the divide-by-zero (not a validation
rejection), and a request with negative size and leverage 101 is quoted
normally instead of being rejected. -/
theorem getQuote_no_validation_counterexample :
    get_quote (.ok [("BTC", 100)]) (.ok [])
        { symbol := "BTC", is_buy := true, size_usd := 100, leverage := 0 } 7
      = .error .divisionByZero ∧
    (get_quote (.ok [("BTC", 100)]) (.ok [])
        { symbol := "BTC", is_buy := true, size_usd := -5, leverage := 101 } 7).isOk = true :=
  ⟨rfl, rfl⟩

/-- C2 amended: `submit_order` rejects size ≤ 0 and leverage outside [1, 100]
with a `success = false` response and performs no division at all.  `get_quote`
performs no such validation: when the resolved price is nonzero and the
context query succeeded, a leverage-0 request reaches `1 / request.leverage`
and fails with the resulting divide-by-zero, while any request with nonzero
leverage — including size ≤ 0 or leverage > 100 — is quoted normally; a quote
(and hence a liquidation price) is only ever returned for nonzero leverage. -/
theorem validation_before_division :
    (∀ tx : SignedTransaction, tx.size_usd ≤ 0 → (submit_order tx).success = false)
  ∧ (∀ tx : SignedTransaction, tx.leverage < 1 ∨ 100 < tx.leverage →
        (submit_order tx).success = false)
  ∧ (∀ (allMids : Mids) (mc : MetaCtxs) (request : QuoteRequest) (now : ℤ),
        request.leverage = 0 → midOf allMids request.symbol ≠ 0 →
        get_quote (.ok allMids) (.ok mc) request now = .error .divisionByZero)
  ∧ (∀ (allMids : Mids) (mc : MetaCtxs) (request : QuoteRequest) (now : ℤ),
        midOf allMids request.symbol ≠ 0 → request.leverage ≠ 0 →
        ∃ q, get_quote (.ok allMids) (.ok mc) request now = .ok q)
  ∧ (∀ (midsRes : Except UpstreamErr Mids) (ctxsRes : Except UpstreamErr MetaCtxs)
        (request : QuoteRequest) (now : ℤ) (q : Quote),
        get_quote midsRes ctxsRes request now = .ok q → request.leverage ≠ 0) := by
  refine ⟨?_, ?_, ?_, ?_, ?_⟩
  · intro tx h
    simp [submit_order, h]
  · intro tx h
    by_cases hs : tx.size_usd ≤ 0
    · simp [submit_order, hs]
    · simp only [submit_order, if_neg hs, if_pos h]
  · intro allMids mc request now hl h0
    simp [get_quote, h0, hl]
  · intro allMids mc request now h0 hl
    exact ⟨quoteOf allMids mc request now, get_quote_eq_ok allMids mc request now h0 hl⟩
  · intro midsRes ctxsRes request now q hq
    obtain ⟨allMids, mc, -, -, -, hl, -⟩ := get_quote_ok_inv hq
    exact hl

/-- Witness for the amended C2 at concrete inputs. -/
theorem validation_before_division_witness :
    ((⟨"BTC", true, -1, 5, "0xabc", [], 3⟩ : SignedTransaction).size_usd ≤ 0 ∧
      (submit_order ⟨"BTC", true, -1, 5, "0xabc", [], 3⟩).success = false) ∧
    ((⟨"BTC", true, 100, 0, "0xabc", [], 3⟩ : SignedTransaction).leverage < 1 ∧
      (submit_order ⟨"BTC", true, 100, 0, "0xabc", [], 3⟩).success = false) ∧
    ((⟨"BTC", true, 100, 0⟩ : QuoteRequest).leverage = 0 ∧
      midOf [("BTC", 100)] (⟨"BTC", true, 100, 0⟩ : QuoteRequest).symbol ≠ 0 ∧
      get_quote (.ok [("BTC", 100)]) (.ok []) (⟨"BTC", true, 100, 0⟩ : QuoteRequest) 7
        = .error .divisionByZero) :=
  ⟨⟨by decide, validation_before_division.1 ⟨"BTC", true, -1, 5, "0xabc", [], 3⟩ (by decide)⟩,
   ⟨by decide, validation_before_division.2.1 ⟨"BTC", true, 100, 0, "0xabc", [], 3⟩ (Or.inl (by decide))⟩,
   ⟨rfl, by decide,
    validation_before_division.2.2.1 [("BTC", 100)] [] ⟨"BTC", true, 100, 0⟩ 7 rfl (by decide)⟩⟩

/-- C10: `submit_order` never propagates an exception or error status.  Every
envelope failing validation (size ≤ 0, or leverage < 1, or leverage > 100)
gets a normal response with `success = false` and an error message, and every
envelope passing validation gets `success = true` echoing exactly symbol,
side, size, leverage, signer address and timestamp (the `OrderDetails` record
has no execution-price field). -/
theorem submitOrder_total_validation :
    (∀ tx : SignedTransaction, tx.size_usd ≤ 0 →
        submit_order tx = { success := false, message := "Error: 400: Size must be positive" })
  ∧ (∀ tx : SignedTransaction, 0 < tx.size_usd → (tx.leverage < 1 ∨ 100 < tx.leverage) →
        submit_order tx =
          { success := false, message := "Error: 400: Leverage must be between 1 and 100" })
  ∧ (∀ tx : SignedTransaction, 0 < tx.size_usd → 1 ≤ tx.leverage → tx.leverage ≤ 100 →
        submit_order tx =
          { success := true
            message := "Order validation successful"
            note := some "Real execution requires user wallet integration with private key signing"
            details := some
              { symbol := tx.symbol
                side := if tx.is_buy then "buy" else "sell"
                size_usd := tx.size_usd
                leverage := tx.leverage
                user := tx.user_address
                timestamp := tx.timestamp }
            next_steps := some
              ["1. Integrate web3 wallet (MetaMask, WalletConnect)",
               "2. Sign order with user's private key",
               "3. Submit to Hyperliquid Exchange endpoint",
               "4. Monitor order status via WebSocket"] }) := by
  refine ⟨?_, ?_, ?_⟩
  · intro tx h
    simp [submit_order, h]
  · intro tx h1 h2
    simp only [submit_order, if_neg (not_le.mpr h1), if_pos h2]
  · intro tx h1 h2 h3
    have hno : ¬(tx.leverage < 1 ∨ 100 < tx.leverage) := by omega
    simp only [submit_order, if_neg (not_le.mpr h1), if_neg hno]

/-- Witness for C10 at concrete inputs: one rejected and one accepted order. -/
theorem submitOrder_total_validation_witness :
    ((⟨"BTC", true, 0, 5, "0xabc", [], 3⟩ : SignedTransaction).size_usd ≤ 0 ∧
      submit_order ⟨"BTC", true, 0, 5, "0xabc", [], 3⟩ =
        { success := false, message := "Error: 400: Size must be positive" }) ∧
    (0 < (⟨"ETH", false, 25, 10, "0xdef", [], 9⟩ : SignedTransaction).size_usd ∧
      submit_order ⟨"ETH", false, 25, 10, "0xdef", [], 9⟩ =
        { success := true
          message := "Order validation successful"
          note := some "Real execution requires user wallet integration with private key signing"
          details := some
            { symbol := "ETH", side := "sell", size_usd := 25, leverage := 10,
              user := "0xdef", timestamp := 9 }
          next_steps := some
            ["1. Integrate web3 wallet (MetaMask, WalletConnect)",
             "2. Sign order with user's private key",
             "3. Submit to Hyperliquid Exchange endpoint",
             "4. Monitor order status via WebSocket"] }) :=
  ⟨⟨by decide, submitOrder_total_validation.1 ⟨"BTC", true, 0, 5, "0xabc", [], 3⟩ (by decide)⟩,
   ⟨by decide, submitOrder_total_validation.2.2 ⟨"ETH", false, 25, 10, "0xdef", [], 9⟩
      (by decide) (by decide) (by decide)⟩⟩

/-- C4 counterexample: both upstream queries of `get_prices` run inside the
`try` block, so when the metadata/asset-context query fails (raises) while the
mid-price query succeeded, the whole endpoint fails with the catch-all error
instead of returning a snapshot with zero changes. -/
theorem getPrices_ctx_failure_counterexample :
    get_prices (.ok [("BTC", 100)]) (.error { msg := "context query failed" })
      = .error .internal := rfl

/-- C4 amended: if the metadata/asset-context query succeeds but returns a
degenerate response without an asset-context element (fewer than two
elements), `get_prices` still returns every tracked symbol with
`change_24h = 0`; but if the context query actually fails (raises), the whole
operation fails with the catch-all error even though the mid-price query
succeeded. -/
theorem getPrices_partial_failure :
    (∀ (allMids : Mids) (mc : MetaCtxs), mc.length ≤ 1 →
        get_prices (.ok allMids) (.ok mc) =
          .ok (trackedSymbols.map fun symbol =>
            (symbol, { price := midOf allMids symbol, change_24h := 0 })))
  ∧ (∀ (allMids : Mids) (e : UpstreamErr),
        get_prices (.ok allMids) (.error e) = .error .internal) := by
  constructor
  · intro allMids mc h
    have h1 : mc[1]? = none := List.getElem?_eq_none h
    simp [get_prices, h1]
  · intro allMids e
    rfl

/-- Witness for the amended C4: a context response holding only the metadata
element. -/
theorem getPrices_partial_failure_witness :
    ([[]] : MetaCtxs).length ≤ 1 ∧
    get_prices (.ok [("BTC", 100)]) (.ok [[]]) =
      .ok (trackedSymbols.map fun symbol =>
        (symbol, { price := midOf [("BTC", 100)] symbol, change_24h := 0 })) :=
  ⟨by decide, getPrices_partial_failure.1 [("BTC", 100)] [[]] (by decide)⟩

/-- C5: for every valid quote request (size > 0, 1 ≤ leverage ≤ 100) with
resolved price > 0, the estimated fee of the returned quote is
`round(size_usd * 0.00035, 6)`, with the taker rate a fixed engine constant. -/
theorem getQuote_fee_formula (allMids : Mids) (mc : MetaCtxs) (request : QuoteRequest)
    (now : ℤ) (hsize : 0 < request.size_usd) (hlev1 : 1 ≤ request.leverage)
    (hlev2 : request.leverage ≤ 100) (hpx : 0 < midOf allMids request.symbol) :
    ∃ q, get_quote (.ok allMids) (.ok mc) request now = .ok q ∧
      q.estimated_fee = pyRound (request.size_usd * (35 / 100000)) 6 :=
  ⟨quoteOf allMids mc request now,
   get_quote_eq_ok allMids mc request now (ne_of_gt hpx) (by omega), rfl⟩

/-- Witness for C5 at a concrete valid request. -/
theorem getQuote_fee_formula_witness :
    (0:ℚ) < 50 ∧ (1:ℤ) ≤ 2 ∧ (2:ℤ) ≤ 100 ∧ (0:ℚ) < midOf [("BTC", 100)] "BTC" ∧
    ∃ q, get_quote (.ok [("BTC", 100)]) (.ok [])
        { symbol := "BTC", is_buy := true, size_usd := 50, leverage := 2 } 7 = .ok q ∧
      q.estimated_fee = pyRound (50 * (35 / 100000)) 6 :=
  ⟨by decide, by decide, by decide, by decide,
   getQuote_fee_formula [("BTC", 100)] []
     { symbol := "BTC", is_buy := true, size_usd := 50, leverage := 2 } 7
     (by decide) (by decide) (by decide) (by decide)⟩

/-- C6: for every valid quote request (size > 0, 1 ≤ leverage ≤ 100) with
resolved price > 0, the liquidation price is
`price * (1 - (1/leverage) * 0.95)` for a buy and
`price * (1 + (1/leverage) * 0.95)` for a sell, computed on the unrounded
resolved price and rounded only at the output boundary to 2 decimal places. -/
theorem getQuote_liquidation_formula (allMids : Mids) (mc : MetaCtxs)
    (request : QuoteRequest) (now : ℤ) (hsize : 0 < request.size_usd)
    (hlev1 : 1 ≤ request.leverage) (hlev2 : request.leverage ≤ 100)
    (hpx : 0 < midOf allMids request.symbol) :
    ∃ q, get_quote (.ok allMids) (.ok mc) request now = .ok q ∧
      q.estimated_price = midOf allMids request.symbol ∧
      q.liquidation_price =
        (if request.is_buy then
          pyRound (midOf allMids request.symbol * (1 - 1 / (request.leverage : ℚ) * (95 / 100))) 2
        else
          pyRound (midOf allMids request.symbol * (1 + 1 / (request.leverage : ℚ) * (95 / 100))) 2) := by
  refine ⟨quoteOf allMids mc request now,
    get_quote_eq_ok allMids mc request now (ne_of_gt hpx) (by omega), rfl, ?_⟩
  cases hb : request.is_buy <;> simp [quoteOf, hb]

/-- Witness for C6 at a concrete valid buy request. -/
theorem getQuote_liquidation_formula_witness :
    (0:ℚ) < 50 ∧ (1:ℤ) ≤ 2 ∧ (2:ℤ) ≤ 100 ∧ (0:ℚ) < midOf [("BTC", 100)] "BTC" ∧
    ∃ q, get_quote (.ok [("BTC", 100)]) (.ok [])
        { symbol := "BTC", is_buy := true, size_usd := 50, leverage := 2 } 7 = .ok q ∧
      q.estimated_price = midOf [("BTC", 100)] "BTC" ∧
      q.liquidation_price =
        (if true then
          pyRound (midOf [("BTC", 100)] "BTC" * (1 - 1 / ((2:ℤ) : ℚ) * (95 / 100))) 2
        else
          pyRound (midOf [("BTC", 100)] "BTC" * (1 + 1 / ((2:ℤ) : ℚ) * (95 / 100))) 2) :=
  ⟨by decide, by decide, by decide, by decide,
   getQuote_liquidation_formula [("BTC", 100)] []
     { symbol := "BTC", is_buy := true, size_usd := 50, leverage := 2 } 7
     (by decide) (by decide) (by decide) (by decide)⟩

/-- C8: for every upstream order book, `get_orderbook` exposes as bids and
asks exactly the first 20 levels (or all, if fewer) of the corresponding
upstream side, in upstream order; with 30 upstream bid levels the exposed
bids have exactly `min 20 30 = 20` entries. -/
theorem orderbook_truncation {α : Type} (book : L2Book α) (bids asks : List α)
    (symbol : String) (now : ℤ)
    (h0 : book.levels[0]? = some bids) (h1 : book.levels[1]? = some asks) :
    ∃ ob, get_orderbook (.ok book) symbol now = .ok ob ∧
      ob.bids = bids.take 20 ∧ ob.asks = asks.take 20 ∧
      ob.bids.length = min 20 bids.length ∧ ob.asks.length = min 20 asks.length := by
  refine ⟨{ symbol := symbol, bids := bids.take 20, asks := asks.take 20,
            timestamp := book.time.getD now }, ?_, rfl, rfl, ?_, ?_⟩
  · simp [get_orderbook, h0, h1]
  · simp
  · simp

/-- Witness for C8: an upstream book with 30 bid levels and 5 ask levels. -/
theorem orderbook_truncation_witness :
    ({ levels := [List.range 30, List.range 5], time := some 99 } : L2Book ℕ).levels[0]?
        = some (List.range 30) ∧
    ({ levels := [List.range 30, List.range 5], time := some 99 } : L2Book ℕ).levels[1]?
        = some (List.range 5) ∧
    min 20 (List.range 30).length = 20 ∧
    ∃ ob, get_orderbook (.ok { levels := [List.range 30, List.range 5], time := some 99 })
        "BTC" 7 = .ok ob ∧
      ob.bids = (List.range 30).take 20 ∧ ob.asks = (List.range 5).take 20 ∧
      ob.bids.length = min 20 (List.range 30).length ∧
      ob.asks.length = min 20 (List.range 5).length :=
  ⟨rfl, rfl, by decide,
   orderbook_truncation { levels := [List.range 30, List.range 5], time := some 99 }
     (List.range 30) (List.range 5) "BTC" 7 rfl rfl⟩

/-! ## Helper lemmas about candle normalization -/

lemma parseField_none_iff {α : Type} (f : RawField α) (d : α) :
    parseField f d = none ↔ f = .bad := by
  cases f <;> simp [parseField]

set_option maxHeartbeats 1600000 in
lemma transformCandle_none_iff (candle : RawCandle) :
    transformCandle candle = none ↔
      candle.t = .bad ∨ candle.o = .bad ∨ candle.h = .bad ∨
      candle.l = .bad ∨ candle.c = .bad ∨ candle.v = .bad := by
  obtain ⟨t, o, h, l, c, v⟩ := candle
  cases t <;> cases o <;> cases h <;> cases l <;> cases c <;> cases v <;>
    simp [transformCandle, parseField]

lemma candleLE_trans : ∀ (a b c : Candle), candleLE a b → candleLE b c → candleLE a c := by
  intro a b c
  simp only [candleLE, decide_eq_true_eq]
  omega

lemma candleLE_total : ∀ (a b : Candle), candleLE a b || candleLE b a := by
  intro a b
  simp only [candleLE, Bool.or_eq_true, decide_eq_true_eq]
  omega

lemma filter_time_pairwise (L : List Candle) (τ : ℤ) :
    (L.filter fun c => c.time == τ).Pairwise fun a b => candleLE a b := by
  induction L with
  | nil => simp
  | cons a L ih =>
    rw [List.filter_cons]
    split
    · refine List.Pairwise.cons ?_ ih
      intro b hb
      have hbτ : (b.time == τ) = true := (List.mem_filter.mp hb).2
      rename_i ha
      simp only [beq_iff_eq] at ha hbτ
      simp [candleLE, ha, hbτ]
    · exact ih

/-- Stability of the final sort of `get_candles`: the candles of any fixed
open time appear in the sorted output exactly as they appeared (in order) in
the unsorted input. -/
lemma mergeSort_filter_time (L : List Candle) (τ : ℤ) :
    (L.mergeSort candleLE).filter (fun c => c.time == τ) =
      L.filter (fun c => c.time == τ) := by
  have hsub : List.Sublist (L.filter (fun c => c.time == τ)) (L.mergeSort candleLE) :=
    List.sublist_mergeSort candleLE_trans candleLE_total
      (filter_time_pairwise L τ) (List.filter_sublist L)
  have hidem : (L.filter (fun c => c.time == τ)).filter (fun c => c.time == τ) =
      L.filter (fun c => c.time == τ) := by
    rw [List.filter_filter]
    simp
  have hsub2 : List.Sublist (L.filter (fun c => c.time == τ))
      ((L.mergeSort candleLE).filter (fun c => c.time == τ)) := by
    have h2 := hsub.filter (fun c => c.time == τ)
    rwa [hidem] at h2
  have hperm : List.Perm ((L.mergeSort candleLE).filter (fun c => c.time == τ))
      (L.filter (fun c => c.time == τ)) :=
    (List.mergeSort_perm L candleLE).filter _
  exact (List.Sublist.eq_of_length hsub2 hperm.length_eq.symm).symm

/-- C9: for a candle query whose upstream response is a non-empty list in
which every record fails numeric parsing, `get_candles` fails with the
"No valid candle data" classification rather than returning an empty list;
consequently every successful `get_candles` response is non-empty. -/
theorem getCandles_nonempty_success :
    (∀ (cs : List RawCandle) (symbol : String), cs ≠ [] →
        cs.filterMap transformCandle = [] →
        get_candles (.payload (some cs)) symbol = .error (.noValidCandleData symbol))
  ∧ (∀ (upstream : CandleUpstream) (symbol : String) (l : List Candle),
        get_candles upstream symbol = .ok l → l ≠ []) := by
  constructor
  · intro cs symbol hne hfm
    simp [get_candles, hne, hfm]
  · intro upstream symbol l h
    cases upstream with
    | netFail msg => simp [get_candles] at h
    | badStatus s b => simp [get_candles] at h
    | payload o =>
      cases o with
      | none => simp [get_candles] at h
      | some cs =>
        by_cases h1 : cs.isEmpty
        · simp [get_candles, h1] at h
        · by_cases h2 : (cs.filterMap transformCandle).isEmpty
          · simp [get_candles, h1, h2] at h
          · simp only [get_candles, h1, h2, Bool.false_eq_true, if_false,
              Except.ok.injEq] at h
            intro hl
            rw [hl] at h
            have hlen := congrArg List.length h
            simp only [List.length_mergeSort, List.length_nil] at hlen
            rw [List.length_eq_zero] at hlen
            simp [hlen] at h2

/-- Witness for C9: a non-empty upstream list whose single record has a
non-numeric high field. -/
theorem getCandles_nonempty_success_witness :
    ([({ h := .bad } : RawCandle)] ≠ []) ∧
    [({ h := .bad } : RawCandle)].filterMap transformCandle = [] ∧
    get_candles (.payload (some [({ h := .bad } : RawCandle)])) "BTC"
      = .error (.noValidCandleData "BTC") :=
  ⟨by simp, rfl,
   getCandles_nonempty_success.1 [({ h := .bad } : RawCandle)] "BTC" (by simp) rfl⟩

/-- C3 counterexample: a candle record whose high field is entirely missing is
not dropped — it is retained with the missing field defaulted to 0 (only a
present-but-non-numeric field causes a drop). -/
theorem candle_missing_field_retained_counterexample :
    get_candles
        (.payload (some [{ t := .val 5, o := .val 1, h := .absent,
                           l := .val 1, c := .val 1, v := .val 1 }])) "BTC"
      = .ok [{ time := 5, open_ := 1, high := 0, low := 1, close := 1, volume := 1 }] := by
  simp [get_candles, transformCandle, parseField]

/-- C3 amended: a candle record is dropped from the output exactly when some
OHLCV (or open-time) field is present but non-numeric; a record with merely
missing fields is retained (with documented defaults), processing continues
with the remaining candles, and the output is the input's surviving candles
sorted ascending by open time, preserving the relative order of candles with
equal open times (stable sort). -/
theorem candle_normalization :
    (∀ candle : RawCandle,
        transformCandle candle = none ↔
          candle.t = .bad ∨ candle.o = .bad ∨ candle.h = .bad ∨
          candle.l = .bad ∨ candle.c = .bad ∨ candle.v = .bad)
  ∧ (∀ (cs : List RawCandle) (symbol : String) (l : List Candle),
        get_candles (.payload (some cs)) symbol = .ok l →
        l.Perm (cs.filterMap transformCandle) ∧
        l.Pairwise (fun a b => a.time ≤ b.time) ∧
        ∀ τ : ℤ, l.filter (fun c => c.time == τ) =
          (cs.filterMap transformCandle).filter (fun c => c.time == τ)) := by
  constructor
  · exact transformCandle_none_iff
  · intro cs symbol l h
    by_cases h1 : cs.isEmpty
    · simp [get_candles, h1] at h
    · by_cases h2 : (cs.filterMap transformCandle).isEmpty
      · simp [get_candles, h1, h2] at h
      · simp only [get_candles, h1, h2, Bool.false_eq_true, if_false,
          Except.ok.injEq] at h
        subst h
        refine ⟨List.mergeSort_perm _ _, ?_, fun τ => mergeSort_filter_time _ τ⟩
        have hp := List.sorted_mergeSort candleLE_trans candleLE_total
          (cs.filterMap transformCandle)
        exact hp.imp (by simp [candleLE])

/-- Witness for the amended C3: one surviving candle. -/
theorem candle_normalization_witness :
    get_candles (.payload (some [({ t := .val 3 } : RawCandle)])) "BTC"
      = .ok [{ time := 3, open_ := 0, high := 0, low := 0, close := 0, volume := 0 }] ∧
    ([{ time := 3, open_ := 0, high := 0, low := 0, close := 0, volume := 0 }] : List Candle).Perm
        ([({ t := .val 3 } : RawCandle)].filterMap transformCandle) ∧
    ([{ time := 3, open_ := 0, high := 0, low := 0, close := 0, volume := 0 }] : List Candle).Pairwise
        (fun a b => a.time ≤ b.time) ∧
    ∀ τ : ℤ,
      ([{ time := 3, open_ := 0, high := 0, low := 0, close := 0, volume := 0 }] : List Candle).filter
          (fun c => c.time == τ) =
        ([({ t := .val 3 } : RawCandle)].filterMap transformCandle).filter
          (fun c => c.time == τ) :=
  ⟨by simp [get_candles, transformCandle, parseField],
   candle_normalization.2 [({ t := .val 3 } : RawCandle)] "BTC"
     [{ time := 3, open_ := 0, high := 0, low := 0, close := 0, volume := 0 }]
     (by simp [get_candles, transformCandle, parseField])⟩

/-! ## Helper lemmas about the price-change dict -/

lemma priceStep_other (m : String → Option ℚ) (a : AssetCtx) (sym : String)
    (ha : ¬ a.coin = sym) : priceStep m a sym = m sym := by
  unfold priceStep
  cases hc : ctxChange a
  · rfl
  · exact if_neg (fun h => ha h.symm)

lemma foldl_priceStep_of_no_match (sym : String) :
    ∀ (ctxs : List AssetCtx) (m : String → Option ℚ),
      ctxs.filter (fun ctx => ctx.coin == sym) = [] →
      ctxs.foldl priceStep m sym = m sym := by
  intro ctxs
  induction ctxs with
  | nil => intro m _; rfl
  | cons a t ih =>
    intro m hf
    rw [List.filter_cons] at hf
    by_cases ha : (a.coin == sym) = true
    · simp [ha] at hf
    · simp only [ha, if_false] at hf
      rw [List.foldl_cons, ih _ hf, priceStep_other]
      simpa using ha

lemma foldl_priceStep_single (sym : String) (ctx : AssetCtx) :
    ∀ (ctxs : List AssetCtx) (m : String → Option ℚ),
      ctxs.filter (fun c => c.coin == sym) = [ctx] →
      ctxs.foldl priceStep m sym = (ctxChange ctx).or (m sym) := by
  intro ctxs
  induction ctxs with
  | nil => intro m hf; simp at hf
  | cons a t ih =>
    intro m hf
    rw [List.filter_cons] at hf
    by_cases ha : (a.coin == sym) = true
    · simp only [ha, if_true] at hf
      obtain ⟨rfl, hft⟩ := List.cons.inj hf
      rw [List.foldl_cons, foldl_priceStep_of_no_match sym t _ hft]
      have hsym : sym = a.coin := by
        have := (beq_iff_eq (a := a.coin) (b := sym)).mp ha
        exact this.symm
      unfold priceStep
      cases hc : ctxChange a
      · rfl
      · simp [hsym]
    · simp only [ha, if_false] at hf
      rw [List.foldl_cons, ih _ hf, priceStep_other _ _ _ (by simpa using ha)]

/-- When exactly one asset context carries the symbol, its `ctxChange` is the
dict entry. -/
lemma priceChanges_single (ctxs : List AssetCtx) (sym : String) (ctx : AssetCtx)
    (h : ctxs.filter (fun c => c.coin == sym) = [ctx]) :
    priceChanges ctxs sym = ctxChange ctx := by
  unfold priceChanges
  rw [foldl_priceStep_single sym ctx ctxs _ h]
  cases ctxChange ctx <;> rfl

/-- C7: the 24h percentage change of an instrument is computed only when its
previous-day price is strictly positive, as `(mark - prevDay)/prevDay * 100`
rounded to 2 decimal places, and is 0 otherwise — in `get_prices` (where a
missing `markPx` defaults to 0) and in `get_market_summary` (where a missing
`markPx` defaults to the mid price); in both, a missing `prevDayPx` defaults
to the mark price. -/
theorem change24h_formula :
    (∀ (allMids : Mids) (meta assetCtxs : List AssetCtx) (sym : String) (ctx : AssetCtx),
        assetCtxs.filter (fun c => c.coin == sym) = [ctx] →
        sym ∈ trackedSymbols →
        ∃ l, get_prices (.ok allMids) (.ok [meta, assetCtxs]) = .ok l ∧
          l.lookup sym = some
            { price := midOf allMids sym
              change_24h :=
                let mark_px := ctx.markPx.getD 0
                let prev_day_px := ctx.prevDayPx.getD mark_px
                if 0 < prev_day_px then
                  pyRound ((mark_px - prev_day_px) / prev_day_px * 100) 2
                else 0 })
  ∧ (∀ (allMids : Mids) (meta assetCtxs : List AssetCtx) (sym : String) (now : ℤ)
        (ctx : AssetCtx),
        assetCtxs.find? (fun c => c.coin == sym) = some ctx →
        ∃ s, get_market_summary (.ok allMids) (.ok [meta, assetCtxs]) sym now = .ok s ∧
          s.price_change_24h =
            (let mark_px := ctx.markPx.getD (midOf allMids sym)
             let prev_day_px := ctx.prevDayPx.getD mark_px
             if 0 < prev_day_px then
               pyRound ((mark_px - prev_day_px) / prev_day_px * 100) 2
             else 0)) := by
  constructor
  · intro allMids meta assetCtxs sym ctx hf hsym
    refine ⟨_, rfl, ?_⟩
    have hpc : priceChanges assetCtxs sym = ctxChange ctx := priceChanges_single _ _ _ hf
    have hchg :
        ((priceChanges assetCtxs sym).getD 0 : ℚ) =
          (let mark_px := ctx.markPx.getD 0
           let prev_day_px := ctx.prevDayPx.getD mark_px
           if 0 < prev_day_px then
             pyRound ((mark_px - prev_day_px) / prev_day_px * 100) 2
           else 0) := by
      rw [hpc]
      unfold ctxChange
      by_cases hp : 0 < ctx.prevDayPx.getD (ctx.markPx.getD 0) <;> simp [hp]
    simp only [trackedSymbols, List.mem_cons, List.not_mem_nil, or_false] at hsym
    rcases hsym with rfl | rfl | rfl | rfl <;>
      simp [get_prices, trackedSymbols, List.lookup, hchg]
  · intro allMids meta assetCtxs sym now ctx hfind
    have hctx : ((([meta, assetCtxs] : MetaCtxs))[1]?).bind
        (List.find? fun c => c.coin == sym) = some ctx := by
      simp [hfind]
    simp only [get_market_summary, hctx]
    exact ⟨_, rfl, rfl⟩

/-- Witness for C7: a single BTC context with mark 110 and previous day 100. -/
theorem change24h_formula_witness :
    ([{ coin := "BTC", markPx := some 110, prevDayPx := some 100 }] :
        List AssetCtx).filter (fun c => c.coin == "BTC")
      = [{ coin := "BTC", markPx := some 110, prevDayPx := some 100 }] ∧
    "BTC" ∈ trackedSymbols ∧
    ([{ coin := "BTC", markPx := some 110, prevDayPx := some 100 }] :
        List AssetCtx).find? (fun c => c.coin == "BTC")
      = some { coin := "BTC", markPx := some 110, prevDayPx := some 100 } ∧
    (∃ l, get_prices (.ok [("BTC", 100)])
        (.ok [[], [{ coin := "BTC", markPx := some 110, prevDayPx := some 100 }]]) = .ok l ∧
      l.lookup "BTC" = some
        { price := midOf [("BTC", 100)] "BTC"
          change_24h :=
            let mark_px := Option.getD (some (110:ℚ)) 0
            let prev_day_px := Option.getD (some (100:ℚ)) mark_px
            if 0 < prev_day_px then
              pyRound ((mark_px - prev_day_px) / prev_day_px * 100) 2
            else 0 }) ∧
    (∃ s, get_market_summary (.ok [("BTC", 100)])
        (.ok [[], [{ coin := "BTC", markPx := some 110, prevDayPx := some 100 }]]) "BTC" 9
        = .ok s ∧
      s.price_change_24h =
        (let mark_px := Option.getD (some (110:ℚ)) (midOf [("BTC", 100)] "BTC")
         let prev_day_px := Option.getD (some (100:ℚ)) mark_px
         if 0 < prev_day_px then
           pyRound ((mark_px - prev_day_px) / prev_day_px * 100) 2
         else 0)) :=
  ⟨rfl, by decide, rfl,
   change24h_formula.1 [("BTC", 100)] []
     [{ coin := "BTC", markPx := some 110, prevDayPx := some 100 }] "BTC"
     { coin := "BTC", markPx := some 110, prevDayPx := some 100 } rfl (by decide),
   change24h_formula.2 [("BTC", 100)] []
     [{ coin := "BTC", markPx := some 110, prevDayPx := some 100 }] "BTC" 9
     { coin := "BTC", markPx := some 110, prevDayPx := some 100 } rfl⟩
